import Mathlib

/-!
Verification of the significant-candle and support/resistance detector
(`streamlit_app.py`).

The analytical core of the script is embedded shallowly:

* a pandas row becomes a `Bar` (date, open, high, low, close, volume);
* the column computations `H-L`, `H-PC`, `L-PC` and the row-wise
  NaN-skipping `max(axis=1)` become `trList` (previous close threaded as
  an `Option ℚ`, `none` playing the role of the NaN produced by
  `shift(1)` on the first row);
* `rolling(window=14).mean()` becomes `rollingMean`, returning `none`
  where pandas returns NaN;
* `dropna(subset=["ATR"])` becomes the `filterMap` in `annotate`;
* the filter `data["TR"] > 1.2 * data["ATR"]` becomes
  `significantCandles`;
* the per-candle slice `data.loc[candle_date + 1 day : end_date]` and
  the two `.any()` checks become `subsequentData`, `unbrokenHigh`,
  `unbrokenLow`, and the two append loops become `resistanceLevels` and
  `supportLevels`.

Dates are modelled as naturals (the script's calendar dates are unique
and strictly increasing, and only their order matters); prices are
rationals.
-/

/-- One daily OHLCV row of the downloaded dataframe. -/
structure Bar where
  date : ℕ
  opn : ℚ
  high : ℚ
  low : ℚ
  close : ℚ
  volume : ℕ
deriving DecidableEq, Repr

instance : Inhabited Bar := ⟨⟨0, 0, 0, 0, 0, 0⟩⟩

/-- Row-wise `max` over the three true-range columns, skipping the
undefined (NaN) previous-close columns exactly as pandas
`max(axis=1)` does. -/
def rowMax (hl : ℚ) (hpc lpc : Option ℚ) : ℚ :=
  match hpc, lpc with
  | none, none => hl
  | some x, none => max hl x
  | none, some y => max hl y
  | some x, some y => max hl (max x y)

/-- The `TR` column: `max(H-L, |H - prevClose|, |L - prevClose|)`, the
previous close threaded as state (`none` on the first row, where
`shift(1)` yields NaN). -/
def trListAux (pc : Option ℚ) : List Bar → List ℚ
  | [] => []
  | b :: rest =>
      rowMax (b.high - b.low) (pc.map fun c => |b.high - c|)
        (pc.map fun c => |b.low - c|) :: trListAux (some b.close) rest

/-- The `TR` column of the whole series. -/
def trList (ts : List Bar) : List ℚ :=
  trListAux none ts

/-- `rolling(window=w).mean()`: entry `i` is the mean of the `w`
trailing values ending at `i`, or `none` (NaN) when fewer than `w`
values are available. -/
def rollingMean (w : ℕ) (xs : List ℚ) : List (Option ℚ) :=
  (List.range xs.length).map fun i =>
    if w ≤ i + 1 then some (((xs.drop (i + 1 - w)).take w).sum / w) else none

/-- A dataframe row after the `TR` and `ATR` columns are added and the
rows with NaN `ATR` are dropped. -/
structure Ann where
  bar : Bar
  tr : ℚ
  atr : ℚ
deriving DecidableEq, Repr

/-- Add the `TR` and `ATR` columns and drop the rows where `ATR` is NaN
(`data.dropna(subset=["ATR"], inplace=True)`). -/
def annotate (ts : List Bar) : List Ann :=
  (List.zip (List.zip ts (trList ts)) (rollingMean 14 (trList ts))).filterMap
    fun p => p.2.map fun a => Ann.mk p.1.1 p.1.2 a

/-- `significant_candles = data[data["TR"] > 1.2 * data["ATR"]]`. -/
def significantCandles (working : List Ann) : List Ann :=
  working.filter fun a => decide ((1.2 : ℚ) * a.atr < a.tr)

/-- `subsequent_data = data.loc[candle_date + pd.Timedelta(days=1) : end_date]`:
the rows of the (ATR-filtered) dataframe dated strictly after the candle
and at most the window end. -/
def subsequentData (working : List Ann) (d E : ℕ) : List Ann :=
  working.filter fun a => decide (d < a.bar.date) && decide (a.bar.date ≤ E)

/-- `not (subsequent_data["High"] > candle_high).any()`. -/
def unbrokenHigh (working : List Ann) (c : Ann) (E : ℕ) : Bool :=
  !(subsequentData working c.bar.date E).any fun a =>
    decide (c.bar.high < a.bar.high)

/-- `not (subsequent_data["Low"] < candle_low).any()`. -/
def unbrokenLow (working : List Ann) (c : Ann) (E : ℕ) : Bool :=
  !(subsequentData working c.bar.date E).any fun a =>
    decide (a.bar.low < c.bar.low)

/-- The `resistance_levels` append loop: one `(date, high)` entry per
significant candle whose high no subsequent row exceeds. -/
def resistanceLevels (working : List Ann) (E : ℕ) : List (ℕ × ℚ) :=
  (significantCandles working).filterMap fun c =>
    if unbrokenHigh working c E then some (c.bar.date, c.bar.high) else none

/-- The `support_levels` append loop: one `(date, low)` entry per
significant candle whose low no subsequent row undercuts. -/
def supportLevels (working : List Ann) (E : ℕ) : List (ℕ × ℚ) :=
  (significantCandles working).filterMap fun c =>
    if unbrokenLow working c E then some (c.bar.date, c.bar.low) else none

/-- The three artifacts the script computes and displays. -/
structure PipelineResult where
  annotated : List Ann
  significant : List Ann
  resistances : List (ℕ × ℚ)
  supports : List (ℕ × ℚ)
deriving DecidableEq, Repr

/-- The whole analytical core, from the downloaded series and the
end-of-window date to the displayed artifacts. -/
def pipeline (ts : List Bar) (E : ℕ) : PipelineResult :=
  { annotated := annotate ts
    significant := significantCandles (annotate ts)
    resistances := resistanceLevels (annotate ts) E
    supports := supportLevels (annotate ts) E }

/-- Spec-side subsequent set (§4.3 step 1): all bars of the original,
unfiltered series with date strictly greater than `d` and at most `E`. -/
def subsequentSpec (ts : List Bar) (d E : ℕ) : List Bar :=
  ts.filter fun b => decide (d < b.date) && decide (b.date ≤ E)

/-- Spec-side resistance scan: the unbroken-high check runs over the
original, unfiltered series. -/
def resistanceLevelsSpec (ts : List Bar) (E : ℕ) : List (ℕ × ℚ) :=
  (significantCandles (annotate ts)).filterMap fun c =>
    if !(subsequentSpec ts c.bar.date E).any (fun b => decide (c.bar.high < b.high))
    then some (c.bar.date, c.bar.high) else none

/-- Spec-side support scan: the unbroken-low check runs over the
original, unfiltered series. -/
def supportLevelsSpec (ts : List Bar) (E : ℕ) : List (ℕ × ℚ) :=
  (significantCandles (annotate ts)).filterMap fun c =>
    if !(subsequentSpec ts c.bar.date E).any (fun b => decide (b.low < c.bar.low))
    then some (c.bar.date, c.bar.low) else none

/-- A 14-bar series: thirteen quiet bars followed by one large-range bar,
which ends up the only row of the working set and is significant. -/
def series14 : List Bar :=
  [⟨0, 10, 11, 10, 10, 0⟩, ⟨1, 10, 11, 10, 10, 0⟩, ⟨2, 10, 11, 10, 10, 0⟩,
   ⟨3, 10, 11, 10, 10, 0⟩, ⟨4, 10, 11, 10, 10, 0⟩, ⟨5, 10, 11, 10, 10, 0⟩,
   ⟨6, 10, 11, 10, 10, 0⟩, ⟨7, 10, 11, 10, 10, 0⟩, ⟨8, 10, 11, 10, 10, 0⟩,
   ⟨9, 10, 11, 10, 10, 0⟩, ⟨10, 10, 11, 10, 10, 0⟩, ⟨11, 10, 11, 10, 10, 0⟩,
   ⟨12, 10, 11, 10, 10, 0⟩, ⟨13, 10, 30, 10, 20, 0⟩]

/-- The single working-set row of `series14`. -/
def annC : Ann :=
  ⟨⟨13, 10, 30, 10, 20, 0⟩, 20, 33/14⟩

/-- A 13-bar series: one bar short of the 14-bar rolling window. -/
def series13 : List Bar :=
  [⟨0, 10, 11, 10, 10, 0⟩, ⟨1, 10, 11, 10, 10, 0⟩, ⟨2, 10, 11, 10, 10, 0⟩,
   ⟨3, 10, 11, 10, 10, 0⟩, ⟨4, 10, 11, 10, 10, 0⟩, ⟨5, 10, 11, 10, 10, 0⟩,
   ⟨6, 10, 11, 10, 10, 0⟩, ⟨7, 10, 11, 10, 10, 0⟩, ⟨8, 10, 11, 10, 10, 0⟩,
   ⟨9, 10, 11, 10, 10, 0⟩, ⟨10, 10, 11, 10, 10, 0⟩, ⟨11, 10, 11, 10, 10, 0⟩,
   ⟨12, 10, 11, 10, 10, 0⟩]

/-- An annotated row whose true range sits exactly on the significance
threshold. -/
def annB : Ann :=
  ⟨⟨0, 0, 0, 0, 0, 0⟩, 1.2, 1⟩

/-- Thirteen quiet bars followed by a malformed bar whose high (1) is
below its low (5). -/
def badSeries : List Bar :=
  [⟨0, 10, 11, 10, 10, 0⟩, ⟨1, 10, 11, 10, 10, 0⟩, ⟨2, 10, 11, 10, 10, 0⟩,
   ⟨3, 10, 11, 10, 10, 0⟩, ⟨4, 10, 11, 10, 10, 0⟩, ⟨5, 10, 11, 10, 10, 0⟩,
   ⟨6, 10, 11, 10, 10, 0⟩, ⟨7, 10, 11, 10, 10, 0⟩, ⟨8, 10, 11, 10, 10, 0⟩,
   ⟨9, 10, 11, 10, 10, 0⟩, ⟨10, 10, 11, 10, 10, 0⟩, ⟨11, 10, 11, 10, 10, 0⟩,
   ⟨12, 10, 11, 10, 10, 0⟩, ⟨13, 3, 1, 5, 3, 0⟩]

/-- The row the pipeline silently derives from the malformed bar. -/
def annBad : Ann :=
  ⟨⟨13, 3, 1, 5, 3, 0⟩, 9, 11/7⟩

lemma trListAux_length (pc : Option ℚ) (ts : List Bar) :
    (trListAux pc ts).length = ts.length := by
  induction ts generalizing pc with
  | nil => rfl
  | cons b rest ih => simp [trListAux, ih]

lemma trList_length (ts : List Bar) : (trList ts).length = ts.length :=
  trListAux_length none ts

lemma trListAux_getD_succ (ts : List Bar) (pc : Option ℚ) (j : ℕ)
    (h : j + 1 < ts.length) :
    (trListAux pc ts).getD (j + 1) 0 =
      rowMax ((ts.getD (j + 1) default).high - (ts.getD (j + 1) default).low)
        (some |(ts.getD (j + 1) default).high - (ts.getD j default).close|)
        (some |(ts.getD (j + 1) default).low - (ts.getD j default).close|) := by
  induction ts generalizing pc j with
  | nil => simp at h
  | cons b rest ih =>
    cases rest with
    | nil => simp at h
    | cons b' rest' =>
      cases j with
      | zero => simp [trListAux]
      | succ k =>
        have h' : k + 1 < (b' :: rest').length := by
          simpa using Nat.lt_of_succ_lt_succ h
        simpa [trListAux] using ih (some b.close) k h'

lemma length_rollingMean (w : ℕ) (xs : List ℚ) :
    (rollingMean w xs).length = xs.length := by
  simp [rollingMean]

lemma rollingMean_getD (w : ℕ) (xs : List ℚ) (i : ℕ) (hi : i < xs.length) :
    (rollingMean w xs).getD i none =
      if w ≤ i + 1 then some (((xs.drop (i + 1 - w)).take w).sum / w)
      else none := by
  rw [List.getD_eq_getElem?_getD, rollingMean, List.getElem?_map,
    List.getElem?_range hi]
  rfl

lemma sum_take_drop (xs : List ℚ) (a : ℕ) :
    ∀ w : ℕ, a + w ≤ xs.length →
      ((xs.drop a).take w).sum = ∑ j ∈ Finset.range w, xs.getD (a + j) 0 := by
  intro w
  induction w with
  | zero => simp
  | succ m ih =>
    intro h
    have hm : a + m < xs.length := by omega
    have hx : (xs.drop a)[m]? = some xs[a + m] := by
      rw [List.getElem?_drop]
      exact List.getElem?_eq_getElem (by omega)
    rw [List.take_succ, List.sum_append, ih (by omega), hx,
      Finset.sum_range_succ]
    have hg : xs.getD (a + m) 0 = xs[a + m] :=
      List.getD_eq_getElem xs 0 hm
    simp [hg, List.getElem?_eq_getElem hm]

lemma mem_range_drop {n k i : ℕ} (h : i ∈ (List.range n).drop k) : k ≤ i := by
  obtain ⟨j, hj, hget⟩ := List.mem_iff_getElem.1 h
  rw [List.getElem_drop] at hget
  rw [List.getElem_range] at hget
  omega

lemma rollingMean_take_eq_none (xs : List ℚ) :
    ∀ o ∈ (rollingMean 14 xs).take 13, o = none := by
  intro o ho
  rw [rollingMean, ← List.map_take, List.take_range] at ho
  obtain ⟨i, hi, rfl⟩ := List.mem_map.1 ho
  have : i < 13 := by
    have := List.mem_range.1 hi
    omega
  simp only [if_neg (by omega : ¬ 14 ≤ i + 1)]

lemma rollingMean_drop_isSome (xs : List ℚ) :
    ∀ o ∈ (rollingMean 14 xs).drop 13, o.isSome := by
  intro o ho
  rw [rollingMean, ← List.map_drop] at ho
  obtain ⟨i, hi, rfl⟩ := List.mem_map.1 ho
  have : 13 ≤ i := mem_range_drop hi
  simp only [if_pos (by omega : 14 ≤ i + 1), Option.isSome_some]

lemma filterMap_ann_all_none (l : List ((Bar × ℚ) × Option ℚ))
    (h : ∀ p ∈ l, p.2 = none) :
    (l.filterMap fun p => p.2.map fun a => Ann.mk p.1.1 p.1.2 a) = [] :=
  List.filterMap_eq_nil_iff.2 fun p hp => by rw [h p hp]; rfl

lemma filterMap_ann_all_some (l : List ((Bar × ℚ) × Option ℚ))
    (h : ∀ p ∈ l, p.2.isSome) :
    ((l.filterMap fun p => p.2.map fun a => Ann.mk p.1.1 p.1.2 a).map Ann.bar)
      = l.map fun p => p.1.1 := by
  induction l with
  | nil => rfl
  | cons p rest ih =>
    obtain ⟨a, ha⟩ := Option.isSome_iff_exists.1 (h p (List.mem_cons_self p rest))
    rw [List.filterMap_cons, ha]
    simpa using ih fun q hq => h q (List.mem_cons_of_mem _ hq)

lemma zip_zip_split (ts : List Bar) (trL : List ℚ) (rm : List (Option ℚ))
    (h1 : trL.length = ts.length) (h2 : rm.length = ts.length) :
    (ts.zip trL).zip rm =
      ((ts.take 13).zip (trL.take 13)).zip (rm.take 13) ++
        ((ts.drop 13).zip (trL.drop 13)).zip (rm.drop 13) := by
  conv_lhs =>
    rw [← List.take_append_drop 13 ts, ← List.take_append_drop 13 trL,
      ← List.take_append_drop 13 rm]
  rw [List.zip_append (by simp [h1]),
    List.zip_append (by simp [List.length_zip, h1, h2])]

lemma annotate_map_bar (ts : List Bar) :
    (annotate ts).map Ann.bar = ts.drop 13 := by
  have hlen1 : (trList ts).length = ts.length := trList_length ts
  have hlen2 : (rollingMean 14 (trList ts)).length = ts.length := by
    rw [length_rollingMean, hlen1]
  rw [annotate, zip_zip_split ts (trList ts) (rollingMean 14 (trList ts)) hlen1 hlen2,
    List.filterMap_append, List.map_append]
  rw [filterMap_ann_all_none _ fun p hp =>
    rollingMean_take_eq_none (trList ts) p.2 (List.of_mem_zip hp).2]
  rw [filterMap_ann_all_some _ fun p hp =>
    rollingMean_drop_isSome (trList ts) p.2 (List.of_mem_zip hp).2]
  have hfst : (fun p : (Bar × ℚ) × Option ℚ => p.1.1) =
      Prod.fst ∘ Prod.fst := rfl
  rw [hfst, ← List.map_map, List.map_fst_zip _ _ (by simp [List.length_zip, hlen1, hlen2]),
    List.map_fst_zip _ _ (by simp [hlen1])]
  simp

lemma annotate_eq_nil_of_short (ts : List Bar) (h : ts.length < 14) :
    annotate ts = [] := by
  have hm : (annotate ts).map Ann.bar = [] := by
    rw [annotate_map_bar]
    exact List.drop_eq_nil_of_le (by omega)
  exact List.map_eq_nil_iff.1 hm

lemma pairwise_date_annotate (ts : List Bar)
    (hd : (ts.map Bar.date).Pairwise (· < ·)) :
    ((annotate ts).map fun a => a.bar.date).Pairwise (· < ·) := by
  have h1 : (annotate ts).map (fun a => a.bar.date) =
      (ts.drop 13).map Bar.date := by
    have := congrArg (List.map Bar.date) (annotate_map_bar ts)
    simpa [List.map_map] using this
  rw [h1]
  exact List.Pairwise.sublist ((List.drop_sublist 13 ts).map Bar.date) hd

lemma pairwise_bar_date_annotate (ts : List Bar)
    (hd : (ts.map Bar.date).Pairwise (· < ·)) :
    (annotate ts).Pairwise fun a b => a.bar.date < b.bar.date :=
  List.pairwise_map.1 (pairwise_date_annotate ts hd)

lemma date_inj_of_pairwise (l : List Ann)
    (hp : l.Pairwise fun a b => a.bar.date < b.bar.date) :
    ∀ c ∈ l, ∀ c' ∈ l, c.bar.date = c'.bar.date → c = c' := by
  induction l with
  | nil => intro c hc; exact absurd hc (List.not_mem_nil c)
  | cons a rest ih =>
    have ha := (List.pairwise_cons.1 hp).1
    have hrest := (List.pairwise_cons.1 hp).2
    intro c hc c' hc' heq
    rcases List.mem_cons.1 hc with hceq | hcm
    · rcases List.mem_cons.1 hc' with hceq' | hcm'
      · rw [hceq, hceq']
      · subst hceq
        exact absurd heq (Nat.ne_of_lt (ha c' hcm'))
    · rcases List.mem_cons.1 hc' with hceq' | hcm'
      · subst hceq'
        exact absurd heq.symm (Nat.ne_of_lt (ha c hcm))
      · exact ih hrest c hcm c' hcm' heq

lemma filterMap_if_eq_map_filter (l : List Ann) (p : Ann → Bool)
    (g : Ann → ℕ × ℚ) :
    (l.filterMap fun c => if p c then some (g c) else none) =
      (l.filter p).map g := by
  induction l with
  | nil => rfl
  | cons a rest ih =>
    by_cases hpa : p a
    · rw [List.filterMap_cons, List.filter_cons, if_pos hpa]
      simp [hpa, ih]
    · rw [List.filterMap_cons, List.filter_cons, if_neg hpa]
      simp [hpa, ih]

lemma subsequentData_map_bar (working : List Ann) (d E : ℕ) :
    (subsequentData working d E).map Ann.bar =
      (working.map Ann.bar).filter fun b =>
        decide (d < b.date) && decide (b.date ≤ E) := by
  rw [subsequentData, List.filter_map]
  exact congrArg (List.map Ann.bar) (List.filter_congr fun a _ => rfl)

lemma take13_not_subsequent (ts : List Bar)
    (hd : (ts.map Bar.date).Pairwise (· < ·))
    (c : Ann) (hc : c ∈ annotate ts) :
    ∀ b ∈ ts.take 13, ¬ c.bar.date < b.date := by
  intro b hb
  have hcbar : c.bar ∈ ts.drop 13 := by
    rw [← annotate_map_bar ts]
    exact List.mem_map_of_mem Ann.bar hc
  have hsplit := hd
  rw [← List.take_append_drop 13 ts, List.map_append] at hsplit
  have := (List.pairwise_append.1 hsplit).2.2 b.date
    (List.mem_map_of_mem Bar.date hb) c.bar.date
    (List.mem_map_of_mem Bar.date hcbar)
  omega

lemma subsequentSpec_eq (ts : List Bar) (E : ℕ)
    (hd : (ts.map Bar.date).Pairwise (· < ·))
    (c : Ann) (hc : c ∈ annotate ts) :
    subsequentSpec ts c.bar.date E =
      (subsequentData (annotate ts) c.bar.date E).map Ann.bar := by
  rw [subsequentData_map_bar, annotate_map_bar, subsequentSpec]
  conv_lhs => rw [← List.take_append_drop 13 ts]
  rw [List.filter_append]
  have h1 : ((ts.take 13).filter fun b =>
      decide (c.bar.date < b.date) && decide (b.date ≤ E)) = [] := by
    apply List.filter_eq_nil_iff.2
    intro b hb
    simp only [Bool.and_eq_true, decide_eq_true_eq]
    rintro ⟨hlt, -⟩
    exact take13_not_subsequent ts hd c hc b hb hlt
  rw [h1, List.nil_append]

lemma annotate_series14_eval : annotate series14 = [annC] := by
  norm_num [series14, annC, annotate, trList, trListAux, rowMax, rollingMean,
    List.range_succ, List.filterMap_cons]

lemma significant_series14_eval : significantCandles (annotate series14) = [annC] := by
  rw [annotate_series14_eval]
  norm_num [significantCandles, List.filter, annC]

/-- C3: for every series, the true range at index `i ≥ 1` equals
`max(high_i − low_i, max(|high_i − close_{i−1}|, |low_i − close_{i−1}|))`,
and at index 0 (no previous close) it equals `high_0 − low_0`. -/
theorem trueRange_formula (ts : List Bar) (hne : ts ≠ []) :
    (trList ts).getD 0 0 = (ts.getD 0 default).high - (ts.getD 0 default).low ∧
    ∀ j, j + 1 < ts.length →
      (trList ts).getD (j + 1) 0 =
        max ((ts.getD (j + 1) default).high - (ts.getD (j + 1) default).low)
          (max |(ts.getD (j + 1) default).high - (ts.getD j default).close|
            |(ts.getD (j + 1) default).low - (ts.getD j default).close|) := by
  constructor
  · cases ts with
    | nil => exact absurd rfl hne
    | cons b rest => simp [trList, trListAux, rowMax]
  · intro j hj
    rw [trList, trListAux_getD_succ ts none j hj]
    rfl

/-- Witness for `trueRange_formula`: `series14` at indices 0 and 13. -/
theorem trueRange_formula_witness :
    (series14 ≠ [] ∧ 12 + 1 < series14.length) ∧
    (trList series14).getD 0 0 =
      (series14.getD 0 default).high - (series14.getD 0 default).low ∧
    (trList series14).getD 13 0 =
      max ((series14.getD 13 default).high - (series14.getD 13 default).low)
        (max |(series14.getD 13 default).high - (series14.getD 12 default).close|
          |(series14.getD 13 default).low - (series14.getD 12 default).close|) :=
  ⟨⟨by simp [series14], by simp [series14]⟩,
    (trueRange_formula series14 (by simp [series14])).1,
    (trueRange_formula series14 (by simp [series14])).2 12 (by simp [series14])⟩

/-- C4: the average true range at index `i` is defined iff `i ≥ 13`
(0-indexed, window 14); where defined it is the arithmetic mean of the
true range over the 14 consecutive indices `i − 13 .. i`; and the rows
with undefined average true range are exactly the ones missing from the
working set every downstream stage consumes. -/
theorem atr_window_formula (ts : List Bar) (i : ℕ)
    (hN : 14 ≤ ts.length) (hi : i < ts.length) :
    (((rollingMean 14 (trList ts)).getD i none).isSome ↔ 13 ≤ i) ∧
    (13 ≤ i →
      (rollingMean 14 (trList ts)).getD i none =
        some ((∑ j ∈ Finset.range 14, (trList ts).getD (i - 13 + j) 0) / 14)) ∧
    (annotate ts).map Ann.bar = ts.drop 13 := by
  have hlen : (trList ts).length = ts.length := trList_length ts
  have hgd := rollingMean_getD 14 (trList ts) i (by omega)
  refine ⟨?_, ?_, annotate_map_bar ts⟩
  · rw [hgd]
    by_cases h : 14 ≤ i + 1
    · simp only [if_pos h, Option.isSome_some]
      constructor
      · intro _; omega
      · intro _; trivial
    · simp only [if_neg h, Option.isSome_none]
      constructor
      · intro hfalse; exact absurd hfalse (by simp)
      · intro h13; omega
  · intro h13
    rw [hgd, if_pos (by omega)]
    have he : i + 1 - 14 = i - 13 := by omega
    rw [he, sum_take_drop (trList ts) (i - 13) 14 (by omega)]
    norm_num

/-- Witness for `atr_window_formula`: `series14` at index 13. -/
theorem atr_window_formula_witness :
    (14 ≤ series14.length ∧ 13 < series14.length) ∧
    ((((rollingMean 14 (trList series14)).getD 13 none).isSome ↔ 13 ≤ 13) ∧
      (13 ≤ 13 →
        (rollingMean 14 (trList series14)).getD 13 none =
          some ((∑ j ∈ Finset.range 14,
            (trList series14).getD (13 - 13 + j) 0) / 14)) ∧
      (annotate series14).map Ann.bar = series14.drop 13) :=
  ⟨⟨by simp [series14], by simp [series14]⟩,
    atr_window_formula series14 13 (by simp [series14]) (by simp [series14])⟩

/-- C5: a working-set row is significant iff its true range strictly
exceeds 1.2 times its average true range; a row whose true range exactly
equals `1.2 × ATR` is not significant. -/
theorem significant_iff_strict (ts : List Bar) (a : Ann) :
    (a ∈ significantCandles (annotate ts) ↔
      a ∈ annotate ts ∧ (1.2 : ℚ) * a.atr < a.tr) ∧
    (a.tr = (1.2 : ℚ) * a.atr → a ∉ significantCandles (annotate ts)) := by
  constructor
  · simp [significantCandles, List.mem_filter]
  · intro he hmem
    have hlt := (List.mem_filter.1 hmem).2
    rw [decide_eq_true_eq] at hlt
    rw [he] at hlt
    exact lt_irrefl _ hlt

/-- Witness for `significant_iff_strict`: a row exactly at the
threshold is rejected. -/
theorem significant_iff_strict_witness :
    annB.tr = (1.2 : ℚ) * annB.atr ∧
    annB ∉ significantCandles (annotate series14) :=
  ⟨by norm_num [annB],
    (significant_iff_strict series14 annB).2 (by norm_num [annB])⟩

/-- C2 (amended to the code's behaviour): for a nonempty series shorter
than the 14-bar window, the pipeline completes normally with zero
annotated rows and empty significant and level lists; the script raises
no InsufficientData failure. -/
theorem short_series_completes_empty (ts : List Bar) (E : ℕ)
    (h0 : 0 < ts.length) (h14 : ts.length < 14) :
    pipeline ts E = ⟨[], [], [], []⟩ := by
  have ha := annotate_eq_nil_of_short ts h14
  simp [pipeline, ha, significantCandles, resistanceLevels, supportLevels]

/-- Witness for `short_series_completes_empty`: the 13-bar series. -/
theorem short_series_completes_empty_witness :
    (0 < series13.length ∧ series13.length < 14) ∧
    pipeline series13 20 = ⟨[], [], [], []⟩ :=
  ⟨⟨by simp [series13], by simp [series13]⟩,
    short_series_completes_empty series13 20 (by simp [series13])
      (by simp [series13])⟩

/-- C8 (code behaviour): on `badSeries`, whose last bar has high 1 below
low 5, the script performs no validation: it silently computes a true
range of 9 for the malformed bar and completes, even emitting levels
from it. -/
theorem malformed_bar_silently_processed :
    (badSeries.getD 13 default).high < (badSeries.getD 13 default).low ∧
    (trList badSeries).getD 13 0 = 9 ∧
    pipeline badSeries 13 = ⟨[annBad], [annBad], [(13, 1)], [(13, 5)]⟩ := by
  refine ⟨by norm_num [badSeries], ?_, ?_⟩
  · norm_num [badSeries, trList, trListAux, rowMax]
  · norm_num [badSeries, annBad, pipeline, annotate, trList, trListAux, rowMax,
      rollingMean, List.range_succ, List.filterMap_cons, significantCandles,
      List.filter, resistanceLevels, supportLevels, unbrokenHigh, unbrokenLow,
      subsequentData, List.any]

/-- C9: the pipeline is a deterministic pure function of its inputs —
two runs on an identical series with identical parameters produce
identical annotated, significant and level lists. -/
theorem pipeline_deterministic (ts ts' : List Bar) (E E' : ℕ)
    (hts : ts = ts') (hE : E = E') :
    (pipeline ts E).annotated = (pipeline ts' E').annotated ∧
    (pipeline ts E).significant = (pipeline ts' E').significant ∧
    (pipeline ts E).resistances = (pipeline ts' E').resistances ∧
    (pipeline ts E).supports = (pipeline ts' E').supports := by
  subst hts
  subst hE
  exact ⟨rfl, rfl, rfl, rfl⟩

/-- Witness for `pipeline_deterministic` at `series14`. -/
theorem pipeline_deterministic_witness :
    (series14 = series14 ∧ (13 : ℕ) = 13) ∧
    ((pipeline series14 13).annotated = (pipeline series14 13).annotated ∧
      (pipeline series14 13).significant = (pipeline series14 13).significant ∧
      (pipeline series14 13).resistances = (pipeline series14 13).resistances ∧
      (pipeline series14 13).supports = (pipeline series14 13).supports) :=
  ⟨⟨rfl, rfl⟩, pipeline_deterministic series14 series14 13 13 rfl rfl⟩

/-- C10: when the date-last row of the working set is significant, a
resistance level at its high and a support level at its low are both
emitted: its subsequent set is empty, so the two unbroken checks pass
vacuously. -/
theorem last_bar_yields_both_levels (ts : List Bar) (E : ℕ) (c : Ann)
    (hmem : c ∈ annotate ts)
    (hlast : ∀ a ∈ annotate ts, a.bar.date ≤ c.bar.date)
    (hsig : (1.2 : ℚ) * c.atr < c.tr) :
    subsequentData (annotate ts) c.bar.date E = [] ∧
    (c.bar.date, c.bar.high) ∈ resistanceLevels (annotate ts) E ∧
    (c.bar.date, c.bar.low) ∈ supportLevels (annotate ts) E := by
  have hsub : subsequentData (annotate ts) c.bar.date E = [] := by
    apply List.filter_eq_nil_iff.2
    intro a ha
    simp only [Bool.and_eq_true, decide_eq_true_eq]
    rintro ⟨hlt, -⟩
    exact absurd hlt (Nat.not_lt.2 (hlast a ha))
  have hcs : c ∈ significantCandles (annotate ts) :=
    List.mem_filter.2 ⟨hmem, by simpa using hsig⟩
  refine ⟨hsub, ?_, ?_⟩
  · exact List.mem_filterMap.2 ⟨c, hcs, by simp [unbrokenHigh, hsub]⟩
  · exact List.mem_filterMap.2 ⟨c, hcs, by simp [unbrokenLow, hsub]⟩

/-- Witness for `last_bar_yields_both_levels`: the spike bar of
`series14`. -/
theorem last_bar_yields_both_levels_witness :
    (annC ∈ annotate series14 ∧
      (∀ a ∈ annotate series14, a.bar.date ≤ annC.bar.date) ∧
      (1.2 : ℚ) * annC.atr < annC.tr) ∧
    (subsequentData (annotate series14) annC.bar.date 13 = [] ∧
      (annC.bar.date, annC.bar.high) ∈ resistanceLevels (annotate series14) 13 ∧
      (annC.bar.date, annC.bar.low) ∈ supportLevels (annotate series14) 13) :=
  ⟨⟨by simp [annotate_series14_eval],
      by simp [annotate_series14_eval],
      by norm_num [annC]⟩,
    last_bar_yields_both_levels series14 13 annC
      (by simp [annotate_series14_eval])
      (by simp [annotate_series14_eval])
      (by norm_num [annC])⟩

lemma any_map_comp {α β : Type} (f : α → β) (l : List α) (p : β → Bool) :
    (l.map f).any p = l.any fun a => p (f a) := by
  induction l with
  | nil => rfl
  | cons a rest ih => simp [ih]

lemma level_mem_iff_aux (working : List Ann) (c : Ann)
    (hinj : ∀ c1 ∈ working, ∀ c2 ∈ working, c1.bar.date = c2.bar.date → c1 = c2)
    (hc : c ∈ significantCandles working) (u : Ann → Bool) (g : Ann → ℚ) :
    ((c.bar.date, g c) ∈ ((significantCandles working).filterMap
        fun x => if u x then some (x.bar.date, g x) else none)) ↔ u c = true := by
  constructor
  · intro hm
    obtain ⟨c', hc', heq⟩ := List.mem_filterMap.1 hm
    by_cases hu : u c'
    · rw [if_pos hu] at heq
      have hdate : c'.bar.date = c.bar.date :=
        congrArg Prod.fst (Option.some.inj heq)
      have hcc : c' = c := hinj c' (List.mem_filter.1 hc').1 c
        (List.mem_filter.1 hc).1 hdate
      rwa [hcc] at hu
    · rw [if_neg hu] at heq
      exact absurd heq (by simp)
  · intro hu
    exact List.mem_filterMap.2 ⟨c, hc, by rw [if_pos hu]⟩

lemma unbrokenHigh_iff (working : List Ann) (c : Ann) (E : ℕ) :
    unbrokenHigh working c E = true ↔
      ∀ a ∈ subsequentData working c.bar.date E, a.bar.high ≤ c.bar.high := by
  simp [unbrokenHigh, List.any_eq_false, not_lt]

lemma unbrokenLow_iff (working : List Ann) (c : Ann) (E : ℕ) :
    unbrokenLow working c E = true ↔
      ∀ a ∈ subsequentData working c.bar.date E, c.bar.low ≤ a.bar.low := by
  simp [unbrokenLow, List.any_eq_false, not_lt]

/-- C1: for every significant candle, a resistance level at its high is
emitted iff no subsequent row's high strictly exceeds it, and —
independently — a support level at its low is emitted iff no subsequent
row's low is strictly below it (both conditions vacuously true when the
subsequent set is empty). -/
theorem level_emission_iff (ts : List Bar) (E : ℕ) (c : Ann)
    (hd : (ts.map Bar.date).Pairwise (· < ·))
    (hc : c ∈ significantCandles (annotate ts)) :
    ((c.bar.date, c.bar.high) ∈ resistanceLevels (annotate ts) E ↔
      ∀ a ∈ subsequentData (annotate ts) c.bar.date E,
        a.bar.high ≤ c.bar.high) ∧
    ((c.bar.date, c.bar.low) ∈ supportLevels (annotate ts) E ↔
      ∀ a ∈ subsequentData (annotate ts) c.bar.date E,
        c.bar.low ≤ a.bar.low) := by
  have hinj := date_inj_of_pairwise (annotate ts)
    (pairwise_bar_date_annotate ts hd)
  constructor
  · exact (level_mem_iff_aux (annotate ts) c hinj hc
      (fun x => unbrokenHigh (annotate ts) x E) (fun x => x.bar.high)).trans
      (unbrokenHigh_iff (annotate ts) c E)
  · exact (level_mem_iff_aux (annotate ts) c hinj hc
      (fun x => unbrokenLow (annotate ts) x E) (fun x => x.bar.low)).trans
      (unbrokenLow_iff (annotate ts) c E)

/-- Witness for `level_emission_iff`: the spike bar of `series14`. -/
theorem level_emission_iff_witness :
    ((series14.map Bar.date).Pairwise (· < ·) ∧
      annC ∈ significantCandles (annotate series14)) ∧
    (((annC.bar.date, annC.bar.high) ∈
        resistanceLevels (annotate series14) 13 ↔
      ∀ a ∈ subsequentData (annotate series14) annC.bar.date 13,
        a.bar.high ≤ annC.bar.high) ∧
      ((annC.bar.date, annC.bar.low) ∈ supportLevels (annotate series14) 13 ↔
        ∀ a ∈ subsequentData (annotate series14) annC.bar.date 13,
          annC.bar.low ≤ a.bar.low)) :=
  ⟨⟨by decide, by simp [significant_series14_eval]⟩,
    level_emission_iff series14 13 annC (by decide)
      (by simp [significant_series14_eval])⟩

/-- C6: the unbroken-level check over the ATR-filtered working set is
equivalent to the spec's check over the original, unfiltered series:
for each significant candle the two subsequent sets coincide (every row
dropped for undefined ATR predates every significant candle), and the
spec-side scans produce exactly the script's level lists. -/
theorem scan_equals_original_series_scan (ts : List Bar) (E : ℕ)
    (hd : (ts.map Bar.date).Pairwise (· < ·)) :
    (∀ c ∈ significantCandles (annotate ts),
      subsequentSpec ts c.bar.date E =
        (subsequentData (annotate ts) c.bar.date E).map Ann.bar) ∧
    resistanceLevelsSpec ts E = resistanceLevels (annotate ts) E ∧
    supportLevelsSpec ts E = supportLevels (annotate ts) E := by
  have hsub : ∀ c ∈ significantCandles (annotate ts),
      subsequentSpec ts c.bar.date E =
        (subsequentData (annotate ts) c.bar.date E).map Ann.bar :=
    fun c hc => subsequentSpec_eq ts E hd c (List.mem_filter.1 hc).1
  refine ⟨hsub, ?_, ?_⟩
  · apply List.filterMap_congr
    intro c hc
    rw [hsub c hc, any_map_comp]
    rfl
  · apply List.filterMap_congr
    intro c hc
    rw [hsub c hc, any_map_comp]
    rfl

/-- Witness for `scan_equals_original_series_scan` at `series14`. -/
theorem scan_equals_original_series_scan_witness :
    (series14.map Bar.date).Pairwise (· < ·) ∧
    ((∀ c ∈ significantCandles (annotate series14),
      subsequentSpec series14 c.bar.date 13 =
        (subsequentData (annotate series14) c.bar.date 13).map Ann.bar) ∧
      resistanceLevelsSpec series14 13 = resistanceLevels (annotate series14) 13 ∧
      supportLevelsSpec series14 13 = supportLevels (annotate series14) 13) :=
  ⟨by decide, scan_equals_original_series_scan series14 13 (by decide)⟩

/-- C7: every emitted level's origin candle is significant; each level
list is exactly one entry per passing significant candle, in the same
order as the candles (no reordering, no deduplication); and under the
series date invariant the level dates are strictly ascending. -/
theorem level_origin_and_order (ts : List Bar) (E : ℕ)
    (hd : (ts.map Bar.date).Pairwise (· < ·)) :
    (∀ p ∈ resistanceLevels (annotate ts) E,
      ∃ c ∈ significantCandles (annotate ts),
        c.bar.date = p.1 ∧ c.bar.high = p.2) ∧
    (∀ p ∈ supportLevels (annotate ts) E,
      ∃ c ∈ significantCandles (annotate ts),
        c.bar.date = p.1 ∧ c.bar.low = p.2) ∧
    (resistanceLevels (annotate ts) E).map Prod.fst =
      (((significantCandles (annotate ts)).filter fun c =>
        unbrokenHigh (annotate ts) c E).map fun c => c.bar.date) ∧
    (supportLevels (annotate ts) E).map Prod.fst =
      (((significantCandles (annotate ts)).filter fun c =>
        unbrokenLow (annotate ts) c E).map fun c => c.bar.date) ∧
    ((resistanceLevels (annotate ts) E).map Prod.fst).Pairwise (· < ·) ∧
    ((supportLevels (annotate ts) E).map Prod.fst).Pairwise (· < ·) := by
  have hpw := pairwise_date_annotate ts hd
  have hres : resistanceLevels (annotate ts) E =
      ((significantCandles (annotate ts)).filter fun c =>
        unbrokenHigh (annotate ts) c E).map fun c => (c.bar.date, c.bar.high) :=
    filterMap_if_eq_map_filter _ _ _
  have hsup : supportLevels (annotate ts) E =
      ((significantCandles (annotate ts)).filter fun c =>
        unbrokenLow (annotate ts) c E).map fun c => (c.bar.date, c.bar.low) :=
    filterMap_if_eq_map_filter _ _ _
  have hslr : ((significantCandles (annotate ts)).filter fun c =>
      unbrokenHigh (annotate ts) c E).Sublist (annotate ts) :=
    (List.filter_sublist _).trans (List.filter_sublist _)
  have hsls : ((significantCandles (annotate ts)).filter fun c =>
      unbrokenLow (annotate ts) c E).Sublist (annotate ts) :=
    (List.filter_sublist _).trans (List.filter_sublist _)
  refine ⟨?_, ?_, ?_, ?_, ?_, ?_⟩
  · intro p hp
    obtain ⟨c, hc, heq⟩ := List.mem_filterMap.1 hp
    by_cases hu : unbrokenHigh (annotate ts) c E
    · rw [if_pos hu] at heq
      have h2 := Option.some.inj heq
      exact ⟨c, hc, congrArg Prod.fst h2, congrArg Prod.snd h2⟩
    · rw [if_neg hu] at heq
      exact absurd heq (by simp)
  · intro p hp
    obtain ⟨c, hc, heq⟩ := List.mem_filterMap.1 hp
    by_cases hu : unbrokenLow (annotate ts) c E
    · rw [if_pos hu] at heq
      have h2 := Option.some.inj heq
      exact ⟨c, hc, congrArg Prod.fst h2, congrArg Prod.snd h2⟩
    · rw [if_neg hu] at heq
      exact absurd heq (by simp)
  · rw [hres, List.map_map]
    rfl
  · rw [hsup, List.map_map]
    rfl
  · rw [hres, List.map_map]
    exact List.Pairwise.sublist (List.Sublist.map _ hslr) hpw
  · rw [hsup, List.map_map]
    exact List.Pairwise.sublist (List.Sublist.map _ hsls) hpw

/-- Witness for `level_origin_and_order` at `series14`. -/
theorem level_origin_and_order_witness :
    (series14.map Bar.date).Pairwise (· < ·) ∧
    ((∀ p ∈ resistanceLevels (annotate series14) 13,
      ∃ c ∈ significantCandles (annotate series14),
        c.bar.date = p.1 ∧ c.bar.high = p.2) ∧
      (∀ p ∈ supportLevels (annotate series14) 13,
        ∃ c ∈ significantCandles (annotate series14),
          c.bar.date = p.1 ∧ c.bar.low = p.2) ∧
      (resistanceLevels (annotate series14) 13).map Prod.fst =
        (((significantCandles (annotate series14)).filter fun c =>
          unbrokenHigh (annotate series14) c 13).map fun c => c.bar.date) ∧
      (supportLevels (annotate series14) 13).map Prod.fst =
        (((significantCandles (annotate series14)).filter fun c =>
          unbrokenLow (annotate series14) c 13).map fun c => c.bar.date) ∧
      ((resistanceLevels (annotate series14) 13).map Prod.fst).Pairwise (· < ·) ∧
      ((supportLevels (annotate series14) 13).map Prod.fst).Pairwise (· < ·)) :=
  ⟨by decide, level_origin_and_order series14 13 (by decide)⟩
